import Mathlib

/- Shallow embedding of src/main.go (package main): a minimal image-hosting
   HTTP service.  Pure string helpers mirror the Go standard-library functions
   the program calls; the handlers are modelled as pure functions over an
   explicit filesystem state, with the outcomes of each effectful call
   (multipart parsing, os.MkdirAll, crypto/rand, os.Create, io.Copy,
   os.ReadDir) passed in as explicit parameters. -/

/-- Byte content of a file: a list of byte values. -/
abbrev Bytes := List Nat

/-- The constant BASE_URL of main.go line 16. -/
def BASE_URL : String := "https://i.kuuichi.xyz"

/-- The constant baseDir of main.go line 15. -/
def baseDir : String := "./files"

/-- Whether the first character list is an initial segment of the second. -/
def startsWithList : List Char → List Char → Bool
  | [], _ => true
  | _ :: _, [] => false
  | a :: as, b :: bs => a = b && startsWithList as bs

/-- Scan of every suffix of the second list for an occurrence of the first:
    the recursion behind goContains. -/
def containsAt (sub : List Char) : List Char → Bool
  | [] => startsWithList sub []
  | c :: rest => startsWithList sub (c :: rest) || containsAt sub rest

/-- Embeds Go strings.Contains s sub: sub occurs somewhere inside s
    (the empty string occurs in every string). -/
def goContains (s sub : String) : Bool := containsAt sub.data s.data

/-- Embeds Go strings.TrimPrefix s pre: drops pre from the front of s when s
    starts with it, otherwise returns s unchanged. -/
def goTrimLead (s pre : String) : String :=
  if startsWithList pre.data s.data then String.mk (s.data.drop pre.data.length) else s

/-- Embeds Go strings.ToLower restricted to ASCII, which covers every string
    the program feeds it (filename extensions). -/
def goToLower (s : String) : String :=
  String.mk (s.data.map fun c =>
    if 'A' ≤ c ∧ c ≤ 'Z' then Char.ofNat (c.toNat + 32) else c)

/-- Helper for goExt: walks the reversed character list looking for the last
    dot of the final path element, accumulating the characters after it; a
    path separator or the end of the string means there is no extension. -/
def extScan : List Char → List Char → Option (List Char)
  | _, [] => none
  | acc, c :: rest =>
    if c = '/' then none
    else if c = '.' then some ('.' :: acc)
    else extScan (c :: acc) rest

/-- Embeds Go filepath.Ext: the suffix of the final path element beginning at
    its final dot, or the empty string when there is no dot. -/
def goExt (s : String) : String :=
  match extScan [] s.data.reverse with
  | none => ""
  | some cs => String.mk cs

/-- The 62-character alphanumeric charset of RandomString (main.go line 21). -/
def charset : List Char :=
  "abcdefghijklmnopqrstuvwxyzABCDEFGHIJKLMNOPQRSTUVWXYZ0123456789".data

/-- Embeds RandomString (main.go lines 20-30).  The entropy source is passed
    explicitly: none models a crypto/rand.Read error; some bs models a source
    holding the byte stream bs, from which rand.Read fills a buffer of the
    requested length, failing when the stream is too short.  Each raw byte is
    mapped to a charset index by reduction modulo the charset length. -/
def RandomString (length : Nat) (entropy : Option (List Nat)) : Option String :=
  match entropy with
  | none => none
  | some bs =>
    if bs.length < length then none
    else some (String.mk ((bs.take length).map fun b =>
      charset.getD (b % charset.length) 'a'))

/-- The storage directory baseDir as the handlers observe it: whether the
    directory itself exists and its stat size, the stored files as
    name-content pairs, any other directory entries — subdirectories or
    foreign files, carried as name-size pairs so that both os.ReadDir and
    os.Stat see them — and whether os.ReadDir on the root fails. -/
structure FS where
  dirExists : Bool
  dirSize : Nat
  files : List (String × Bytes)
  extraEntries : List (String × Nat)
  readDirFails : Bool
  deriving DecidableEq

/-- Names listed by os.ReadDir on the storage root: every stored file plus
    the other entries. -/
def FS.dirEntries (fs : FS) : List String :=
  fs.files.map Prod.fst ++ fs.extraEntries.map Prod.fst

/-- Embeds countFiles (main.go lines 159-165): the number of entries
    os.ReadDir yields for the directory, or none when the listing fails. -/
def countFiles (fs : FS) : Option Nat :=
  if fs.readDirFails then none else some fs.dirEntries.length

/-- Embeds a successful os.MkdirAll baseDir (main.go line 47). -/
def FS.mkdirAll (fs : FS) : FS := { fs with dirExists := true }

/-- Embeds os.Create followed by writing content under name: creates or
    truncates, with no pre-existence check (overwrite semantics). -/
def FS.write (fs : FS) (name : String) (content : Bytes) : FS :=
  { fs with files := (name, content) :: fs.files.filter fun p => p.1 != name }

/-- Embeds os.Stat on filepath.Join baseDir name.  The empty name resolves to
    the storage directory itself, because filepath.Join cleans the joined path
    down to the directory; otherwise the named directory entry is looked up —
    a stored file with its byte length as size, or any other entry
    (subdirectory, foreign file) with its recorded stat size — and an absent
    entry yields none. -/
def FS.stat (fs : FS) (name : String) : Option Nat :=
  if name = "" then (if fs.dirExists then some fs.dirSize else none)
  else match fs.files.find? fun p => p.1 == name with
  | some p => some p.2.length
  | none => (fs.extraEntries.find? fun p => p.1 == name).map fun p => p.2

/-- Outcome of r.FormFile applied to the field named file: none models a
    parse failure, some carries the original filename and the payload. -/
abbrev FormFilePart := Option (String × Bytes)

/-- Result of FileUploadHandler: HTTP status, the Content-Type header the
    handler sets, the JSON object written on success (Go encodes the map
    with its keys in sorted order, so imageUrl precedes rawUrl), and the
    filesystem after the request. -/
structure UploadResult where
  status : Nat
  contentType : Option String
  json : Option (List (String × String))
  fs : FS
  deriving DecidableEq

/-- The response http.Error writes: a plain-text status with no JSON body. -/
def plainErr (status : Nat) (fs : FS) : UploadResult :=
  ⟨status, some "text/plain; charset=utf-8", none, fs⟩

/-- Embeds FileUploadHandler (main.go lines 33-93).  The effectful calls are
    parameters: method and form come from the request, mkdirOk is the outcome
    of os.MkdirAll, entropy feeds crypto/rand inside RandomString, createOk
    is the outcome of os.Create and copyOk of io.Copy (a failed copy leaves
    the created file behind, truncated; partial contents are not tracked). -/
def FileUploadHandler (fs : FS) (method : String) (form : FormFilePart)
    (mkdirOk : Bool) (entropy : Option (List Nat)) (createOk copyOk : Bool) :
    UploadResult :=
  if method ≠ "POST" then plainErr 405 fs
  else match form with
  | none => plainErr 400 fs
  | some (origName, content) =>
    if mkdirOk = false then plainErr 500 fs
    else
      let fs1 := fs.mkdirAll
      let ext := goToLower (goExt origName)
      if goContains ".jpg.jpeg.png.gif.bmp" ext = false then plainErr 400 fs1
      else match RandomString 6 entropy with
        | none => plainErr 500 fs1
        | some randomFilename =>
          let newFilename := randomFilename ++ ext
          if createOk = false then plainErr 500 fs1
          else
            let fs2 := fs1.write newFilename []
            if copyOk = false then plainErr 500 fs2
            else
              ⟨200, some "application/json",
               some [("imageUrl", BASE_URL ++ "/f/" ++ newFilename),
                     ("rawUrl", BASE_URL ++ "/files/" ++ newFilename)],
               fs2.write newFilename content⟩

/-- Result of serveImageHTML: HTTP status, the Content-Type header, and the
    HTML body written on success (the plain-text body of http.NotFound and
    the Access-Control-Allow-Origin header are not tracked). -/
structure PageResult where
  status : Nat
  contentType : Option String
  body : Option String
  deriving DecidableEq

/-- Round q / d to the nearest integer, ties to even: the rounding Go's
    strconv applies when fmt prints a float at a fixed precision. -/
def roundHalfEven (q d : Nat) : Nat :=
  if 2 * (q % d) < d then q / d
  else if d < 2 * (q % d) then q / d + 1
  else if q / d % 2 = 0 then q / d else q / d + 1

/-- Decimal digits of n padded on the left to width two. -/
def twoDigits (n : Nat) : String :=
  (if n < 10 then "0" else "") ++ toString n

/-- Embeds fmt's percent-dot-2-f applied to float64 size / (1024 * 1024)
    (main.go lines 113 and 118).  For size below 2 ^ 53 the float64 value is
    exactly size / 2 ^ 20 — the int-to-float conversion is exact and dividing
    by a power of two only shifts the exponent — and fmt rounds that exact
    value to two decimals with ties to even. -/
def formatMB (size : Nat) : String :=
  let h := roundHalfEven (size * 100) 1048576
  toString (h / 100) ++ "." ++ twoDigits (h % 100)

/-- Embeds the Sprintf template of serveImageHTML (main.go lines 133-152),
    with the tabs and newlines of the Go raw string literal; the grouping of
    the concatenation is immaterial, its value is the instantiated template. -/
def htmlRender (metaTitle metaDescription metaImage metaURL imageURL
    filename : String) : String :=
  "<html>\n\t\t<head>\n\t\t\t" ++
  ("<title>" ++ metaTitle ++ "</title>") ++
  "\n\t\t\t<meta charset=\"UTF-8\">\n\t\t\t<meta name=\"viewport\" content=\"width=device-width, initial-scale=1.0\">\n\t\t\t" ++
  ("<meta property=\"og:title\" content=\"" ++ metaTitle ++ "\">") ++
  "\n\t\t\t" ++
  ("<meta property=\"og:description\" content=\"" ++ metaDescription ++ "\">") ++
  "\n\t\t\t" ++
  ("<meta property=\"og:image\" content=\"" ++ metaImage ++ "\">") ++
  "\n\t\t\t" ++
  ("<meta property=\"og:url\" content=\"" ++ metaURL ++ "\">") ++
  "\n\t\t\t<meta name=\"twitter:card\" content=\"summary_large_image\">\n\t\t\t" ++
  ("<meta name=\"twitter:title\" content=\"" ++ metaTitle ++ "\">") ++
  "\n\t\t\t" ++
  ("<meta name=\"twitter:description\" content=\"" ++ metaDescription ++ "\">") ++
  "\n\t\t\t" ++
  ("<meta name=\"twitter:image\" content=\"" ++ metaImage ++ "\">") ++
  "\n\t\t</head>\n\t\t<body>\n\t\t\t<div>\n\t\t\t\t" ++
  ("<img src=\"" ++ imageURL ++ "\" alt=\"" ++ filename ++ "\">") ++
  "\n\t\t\t</div>\n\t\t</body>\n\t</html>"

/-- Embeds serveImageHTML (main.go lines 95-157).  The request method is
    received but never consulted by the handler. -/
def serveImageHTML (fs : FS) (_method path : String) : PageResult :=
  let filename := goTrimLead path "/f/"
  match fs.stat filename with
  | none => ⟨404, some "text/plain; charset=utf-8", none⟩
  | some size =>
    let totalUploads := (countFiles fs).getD 0
    let fileDescription :=
      "Size: " ++ formatMB size ++ " MB - Total uploads: " ++ toString totalUploads
    let imageURL := BASE_URL ++ "/files/" ++ filename
    let pageURL := BASE_URL ++ "/f/" ++ filename
    ⟨200, some "text/html",
     some (htmlRender filename fileDescription imageURL pageURL imageURL filename)⟩

/-- Embeds the files route (main.go line 186): http.FileServer rooted at
    baseDir behind http.StripPrefix, returning the stored bytes when the
    named file exists. -/
def StaticFileHandler (fs : FS) (name : String) : Option Bytes :=
  (fs.files.find? fun p => p.1 == name).map fun p => p.2

/-- A list is an initial segment of itself followed by anything. -/
lemma startsWithList_self_append (l r : List Char) :
    startsWithList l (l ++ r) = true := by
  induction l with
  | nil => rfl
  | cons a as ih => simp [startsWithList, ih]

/-- An initial segment stays one when the scanned list is extended. -/
lemma startsWithList_extend (sub s t : List Char)
    (h : startsWithList sub s = true) :
    startsWithList sub (s ++ t) = true := by
  induction sub generalizing s with
  | nil => rfl
  | cons a as ih =>
    cases s with
    | nil => simp [startsWithList] at h
    | cons b bs =>
      simp only [startsWithList, Bool.and_eq_true] at h ⊢
      exact ⟨h.1, ih bs h.2⟩

/-- The scan succeeds when the sought list starts the scanned list. -/
lemma containsAt_of_starts (sub s : List Char)
    (h : startsWithList sub s = true) : containsAt sub s = true := by
  cases s with
  | nil =>
    cases sub with
    | nil => rfl
    | cons a as => simp [startsWithList] at h
  | cons c rest => simp [containsAt, h]

/-- The empty list is found in every list. -/
lemma containsAt_nil (s : List Char) : containsAt [] s = true := by
  cases s with
  | nil => rfl
  | cons c rest => simp [containsAt, startsWithList]

/-- A found occurrence survives prepending to the scanned list. -/
lemma containsAt_extend_left (sub a s : List Char)
    (h : containsAt sub s = true) : containsAt sub (a ++ s) = true := by
  induction a with
  | nil => simpa using h
  | cons c cs ih => simp [containsAt, ih]

/-- A found occurrence survives appending to the scanned list. -/
lemma containsAt_extend_right (sub s t : List Char)
    (h : containsAt sub s = true) : containsAt sub (s ++ t) = true := by
  induction s with
  | nil =>
    cases sub with
    | nil => exact containsAt_nil t
    | cons a as => simp [containsAt, startsWithList] at h
  | cons c rest ih =>
    simp only [containsAt, Bool.or_eq_true] at h
    rcases h with h | h
    · simp only [List.cons_append, containsAt, Bool.or_eq_true]
      exact Or.inl (startsWithList_extend _ _ _ h)
    · simp only [List.cons_append, containsAt, Bool.or_eq_true]
      exact Or.inr (ih h)

/-- Every string contains itself. -/
lemma goContains_self (p : String) : goContains p p = true := by
  unfold goContains
  exact containsAt_of_starts _ _ (by simpa using startsWithList_self_append p.data [])

/-- Containment in the right part of a concatenation. -/
lemma goContains_append_right (a b p : String)
    (h : goContains b p = true) : goContains (a ++ b) p = true := by
  unfold goContains at h ⊢
  rw [String.data_append]
  exact containsAt_extend_left _ _ _ h

/-- Containment in the left part of a concatenation. -/
lemma goContains_append_left (a b p : String)
    (h : goContains a p = true) : goContains (a ++ b) p = true := by
  unfold goContains at h ⊢
  rw [String.data_append]
  exact containsAt_extend_right _ _ _ h

/-- Rounding to the nearest integer, ties to even, is off by at most a half. -/
lemma roundHalfEven_close (q d : Nat) (hd : 0 < d) :
    |((roundHalfEven q d : ℚ)) - (q : ℚ) / (d : ℚ)| ≤ 1 / 2 := by
  have hdpos : (0 : ℚ) < (d : ℚ) := by exact_mod_cast hd
  have hsplit : (q : ℚ) = (d : ℚ) * ((q / d : Nat) : ℚ) + ((q % d : Nat) : ℚ) := by
    exact_mod_cast (Nat.div_add_mod q d).symm
  have hdiv : (q : ℚ) / d = ((q / d : Nat) : ℚ) + ((q % d : Nat) : ℚ) / d := by
    rw [hsplit]
    field_simp
    ring
  have hrlt : ((q % d : Nat) : ℚ) < d := by exact_mod_cast Nat.mod_lt q hd
  have hrnn : (0 : ℚ) ≤ ((q % d : Nat) : ℚ) := by positivity
  unfold roundHalfEven
  by_cases h1 : 2 * (q % d) < d
  · rw [if_pos h1, hdiv]
    have h1q : 2 * ((q % d : Nat) : ℚ) < (d : ℚ) := by exact_mod_cast h1
    rw [show ((q / d : Nat) : ℚ) - (((q / d : Nat) : ℚ) + ((q % d : Nat) : ℚ) / d)
          = -(((q % d : Nat) : ℚ) / d) by ring, abs_neg,
        abs_of_nonneg (by positivity), div_le_iff₀ hdpos]
    linarith
  · rw [if_neg h1]
    by_cases h2 : d < 2 * (q % d)
    · rw [if_pos h2, hdiv]
      have h2q : (d : ℚ) < 2 * ((q % d : Nat) : ℚ) := by exact_mod_cast h2
      push_cast
      rw [show ((q / d : Nat) : ℚ) + 1 - (((q / d : Nat) : ℚ) + ((q % d : Nat) : ℚ) / d)
            = 1 - ((q % d : Nat) : ℚ) / d by ring]
      have hle1 : ((q % d : Nat) : ℚ) / d ≤ 1 := by
        rw [div_le_one hdpos]
        exact le_of_lt hrlt
      rw [abs_of_nonneg (by linarith)]
      have hhlf : (1 : ℚ) / 2 ≤ ((q % d : Nat) : ℚ) / d := by
        rw [le_div_iff₀ hdpos]
        linarith
      linarith
    · rw [if_neg h2]
      have h3 : 2 * (q % d) = d := le_antisymm (not_lt.mp h2) (not_lt.mp h1)
      have hrd : ((q % d : Nat) : ℚ) / d = 1 / 2 := by
        have h3q : 2 * ((q % d : Nat) : ℚ) = (d : ℚ) := by exact_mod_cast h3
        rw [div_eq_iff (ne_of_gt hdpos)]
        linarith
      rw [hdiv, hrd]
      by_cases h4 : q / d % 2 = 0
      · rw [if_pos h4,
          show ((q / d : Nat) : ℚ) - (((q / d : Nat) : ℚ) + 1 / 2) = -(1 / 2) by ring,
          abs_neg, abs_of_nonneg (by norm_num : (0 : ℚ) ≤ 1 / 2)]
      · rw [if_neg h4]
        push_cast
        rw [show ((q / d : Nat) : ℚ) + 1 - (((q / d : Nat) : ℚ) + 1 / 2) = 1 / 2 by ring,
          abs_of_nonneg (by norm_num : (0 : ℚ) ≤ 1 / 2)]

/-- The two-decimal formatting of formatMB is accurate: the printed value of
    k hundredths differs from size / 2 ^ 20 megabytes by at most half of the
    last printed digit. -/
lemma formatMB_close (size : Nat) :
    ∃ k : Nat, formatMB size = toString (k / 100) ++ "." ++ twoDigits (k % 100) ∧
      |(k : ℚ) / 100 - (size : ℚ) / 1048576| ≤ 1 / 200 := by
  refine ⟨roundHalfEven (size * 100) 1048576, rfl, ?_⟩
  have h := roundHalfEven_close (size * 100) 1048576 (by norm_num)
  have heq : ((roundHalfEven (size * 100) 1048576 : Nat) : ℚ) / 100 - (size : ℚ) / 1048576
      = (((roundHalfEven (size * 100) 1048576 : Nat) : ℚ)
          - ((size * 100 : Nat) : ℚ) / ((1048576 : Nat) : ℚ)) / 100 := by
    push_cast
    ring
  rw [heq, abs_div, abs_of_nonneg (by norm_num : (0 : ℚ) ≤ 100)]
  push_cast at h ⊢
  linarith

/-- A sample storage state: one stored file, one extra entry. -/
def fsSample : FS :=
  ⟨true, 4096, [("abc123.png", [1, 2, 3])], [("sub", 4096)], false⟩

/-- A sample storage state before any upload: no directory yet. -/
def fsEmpty : FS := ⟨false, 0, [], [], false⟩

/-- A sample storage state holding a file named aaaaaa.png, the name the
    all-zero entropy stream generates for a .png upload. -/
def fsCollide : FS := ⟨true, 4096, [("aaaaaa.png", [9, 9])], [], false⟩

/-- RandomString fails exactly when the entropy source cannot supply enough
    bytes. -/
lemma randomString_none_iff (n : Nat) (e : Option (List Nat)) :
    RandomString n e = none ↔ (e = none ∨ ∃ bs, e = some bs ∧ bs.length < n) := by
  cases e with
  | none => simp [RandomString]
  | some bs =>
    simp only [RandomString]
    by_cases hlt : bs.length < n
    · simp [hlt]
    · simp [hlt]

/-- A sufficient entropy stream makes RandomString succeed with the
    modulo-mapped characters. -/
lemma randomString_of_le (n : Nat) (bs : List Nat) (h : n ≤ bs.length) :
    RandomString n (some bs)
      = some (String.mk ((bs.take n).map fun b =>
          charset.getD (b % charset.length) 'a')) := by
  simp [RandomString, Nat.not_lt.mpr h]

/-- A successful RandomString result has the requested length, draws every
    character from the charset, and is the modulo image of the entropy
    bytes. -/
lemma randomString_some (n : Nat) (bs : List Nat) (r : String)
    (h : RandomString n (some bs) = some r) :
    r.length = n ∧ (∀ c ∈ r.data, c ∈ charset) ∧
      r.data = (bs.take n).map fun b => charset.getD (b % charset.length) 'a' := by
  simp only [RandomString] at h
  by_cases hlt : bs.length < n
  · simp [hlt] at h
  · rw [if_neg hlt] at h
    have h' := Option.some.inj h
    subst h'
    refine ⟨?_, ?_, rfl⟩
    · show ((bs.take n).map fun b => charset.getD (b % charset.length) 'a').length = n
      rw [List.length_map, List.length_take]
      exact Nat.min_eq_left (Nat.le_of_not_lt hlt)
    · intro c hc
      rcases List.mem_map.mp hc with ⟨b, _, hb⟩
      have hidx : b % charset.length < charset.length :=
        Nat.mod_lt b (by decide : 0 < charset.length)
      rw [← hb, List.getD_eq_getElem charset 'a' hidx]
      exact List.getElem_mem hidx

/-- C3: a request to the upload route whose method is not POST is answered
    405 with a plain-text error and no JSON body, before any filesystem
    operation: the filesystem in the result is the one the request found. -/
theorem upload_nonpost_405 (fs : FS) (method : String) (form : FormFilePart)
    (mkdirOk : Bool) (entropy : Option (List Nat)) (createOk copyOk : Bool)
    (h : method ≠ "POST") :
    FileUploadHandler fs method form mkdirOk entropy createOk copyOk
      = plainErr 405 fs := by
  unfold FileUploadHandler
  rw [if_pos h]

/-- Witness for upload_nonpost_405 at a concrete GET request. -/
theorem upload_nonpost_405_witness :
    FileUploadHandler fsSample "GET" (some ("a.png", [1])) true
      (some [0, 0, 0, 0, 0, 0]) true true = plainErr 405 fsSample :=
  upload_nonpost_405 fsSample "GET" (some ("a.png", [1])) true
    (some [0, 0, 0, 0, 0, 0]) true true (by decide)

/-- C5: RandomString n either fails, exactly when the entropy source cannot
    supply n bytes, or returns a string of exactly n characters drawn from
    the 62-character alphanumeric charset by modulo reduction of the raw
    bytes. -/
theorem randomString_spec (n : Nat) (e : Option (List Nat)) :
    charset.length = 62 ∧
    (RandomString n e = none ↔ (e = none ∨ ∃ bs, e = some bs ∧ bs.length < n)) ∧
    (∀ s, RandomString n e = some s →
      s.length = n ∧ (∀ c ∈ s.data, c ∈ charset) ∧
      ∃ bs, e = some bs ∧
        s.data = (bs.take n).map fun b => charset.getD (b % charset.length) 'a') := by
  refine ⟨by decide, randomString_none_iff n e, ?_⟩
  intro s hs
  cases e with
  | none => simp [RandomString] at hs
  | some bs =>
    rcases randomString_some n bs s hs with ⟨h1, h2, h3⟩
    exact ⟨h1, h2, bs, rfl, h3⟩

/-- Witness for randomString_spec: three entropy bytes 0, 1, 200 map to a,
    b, o. -/
theorem randomString_spec_witness :
    RandomString 3 (some [0, 1, 200]) = some "abo" ∧ ("abo" : String).length = 3 :=
  ⟨by decide, ((randomString_spec 3 (some [0, 1, 200])).2.2 "abo" (by decide)).1⟩

/-- A stat on a nonempty name fails exactly when the name is not a directory
    entry of the storage root — neither a stored file nor any other entry. -/
lemma stat_none_iff_not_entry (fs : FS) (name : String) (hne : name ≠ "") :
    fs.stat name = none ↔ name ∉ fs.dirEntries := by
  unfold FS.stat FS.dirEntries
  rw [if_neg hne]
  cases hf : fs.files.find? (fun p => p.1 == name) with
  | some q =>
    have hq : q.1 = name := by
      have := List.find?_some hf
      exact eq_of_beq this
    have hmem : name ∈ fs.files.map Prod.fst :=
      List.mem_map.mpr ⟨q, List.mem_of_find?_eq_some hf, hq⟩
    constructor
    · intro h
      exact absurd h (Option.some_ne_none _)
    · intro h
      exact absurd (List.mem_append.mpr (Or.inl hmem)) h
  | none =>
    have hfl : ∀ q ∈ fs.files, q.1 ≠ name := by
      intro q hq hcontra
      have := List.find?_eq_none.mp hf q hq
      exact this (beq_iff_eq.mpr hcontra)
    rw [Option.map_eq_none', List.find?_eq_none]
    constructor
    · intro h hmem
      rcases List.mem_append.mp hmem with hm | hm
      · rcases List.mem_map.mp hm with ⟨q, hq, hqe⟩
        exact hfl q hq hqe
      · rcases List.mem_map.mp hm with ⟨q, hq, hqe⟩
        exact h q hq (beq_iff_eq.mpr hqe)
    · intro h q hq hbeq
      exact h (List.mem_append.mpr
        (Or.inr (List.mem_map.mpr ⟨q, hq, eq_of_beq hbeq⟩)))

/-- C6: the preview handler ignores the request method, answers 404 exactly
    when the stat of the named entry fails, and 200 whenever it succeeds; for
    a nonempty name the stat fails exactly when the name is absent from the
    directory entries of the storage root — stored files and any other
    entries such as subdirectories alike. -/
theorem preview_status_spec (fs : FS) (m1 m2 p : String) :
    serveImageHTML fs m1 p = serveImageHTML fs m2 p ∧
    (serveImageHTML fs m1 p).status
      = (if fs.stat (goTrimLead p "/f/") = none then 404 else 200) ∧
    (goTrimLead p "/f/" ≠ "" →
      (fs.stat (goTrimLead p "/f/") = none
        ↔ goTrimLead p "/f/" ∉ fs.dirEntries)) := by
  refine ⟨rfl, ?_, fun hne => stat_none_iff_not_entry fs _ hne⟩
  unfold serveImageHTML
  cases h : fs.stat (goTrimLead p "/f/") with
  | none => simp [h]
  | some sz => simp [h]

/-- Witness for preview_status_spec: the subdirectory sub of fsSample is
    found by the stat and served 200, while a missing name is answered
    404. -/
theorem preview_status_spec_witness :
    (serveImageHTML fsSample "GET" "/f/sub").status = 200 ∧
    fsSample.stat (goTrimLead "/f/sub" "/f/") ≠ none ∧
    (serveImageHTML fsSample "GET" "/f/missing.png").status = 404 ∧
    fsSample.stat (goTrimLead "/f/missing.png" "/f/") = none := by
  refine ⟨?_, by decide, ?_,
    ((preview_status_spec fsSample "GET" "POST" "/f/missing.png").2.2
      (by decide)).mpr (by decide)⟩
  · rw [(preview_status_spec fsSample "GET" "POST" "/f/sub").2.1]
    decide
  · rw [(preview_status_spec fsSample "GET" "POST" "/f/missing.png").2.1]
    decide

/-- C10: the path consisting of the route only leaves an empty
    filename, whose stat resolves to the storage directory itself: the
    preview handler answers 200 with a page exactly when the directory
    exists, and 404 when it does not. -/
theorem preview_root_dir (fs : FS) (m : String) :
    goTrimLead "/f/" "/f/" = "" ∧
    (serveImageHTML fs m "/f/").status = (if fs.dirExists then 200 else 404) ∧
    (serveImageHTML fs m "/f/").body.isSome = fs.dirExists := by
  have ht : goTrimLead "/f/" "/f/" = "" := by decide
  refine ⟨ht, ?_, ?_⟩ <;>
  · unfold serveImageHTML
    rw [ht]
    cases hd : fs.dirExists <;> simp [FS.stat, hd]

/-- The upload handler on the success path: POST, well-formed form part,
    directory created, extension admitted, entropy sufficient, create and
    copy succeed. -/
lemma upload_success_eq (fs : FS) (origName : String) (content : Bytes)
    (bs : List Nat) (r : String)
    (hr : RandomString 6 (some bs) = some r)
    (hc : goContains ".jpg.jpeg.png.gif.bmp" (goToLower (goExt origName)) = true) :
    FileUploadHandler fs "POST" (some (origName, content)) true (some bs) true true
      = ⟨200, some "application/json",
         some [("imageUrl", BASE_URL ++ "/f/" ++ (r ++ goToLower (goExt origName))),
               ("rawUrl", BASE_URL ++ "/files/" ++ (r ++ goToLower (goExt origName)))],
         (fs.mkdirAll.write (r ++ goToLower (goExt origName)) []).write
           (r ++ goToLower (goExt origName)) content⟩ := by
  simp +decide [FileUploadHandler, hc, hr]

/-- The upload handler on the rejected-extension path: the directory has been
    created but no file is touched. -/
lemma upload_reject_eq (fs : FS) (origName : String) (content : Bytes)
    (entropy : Option (List Nat)) (createOk copyOk : Bool)
    (hc : goContains ".jpg.jpeg.png.gif.bmp" (goToLower (goExt origName)) = false) :
    FileUploadHandler fs "POST" (some (origName, content)) true entropy
      createOk copyOk = plainErr 400 fs.mkdirAll := by
  simp +decide [FileUploadHandler, hc]

/-- Writing a file makes the raw-file route serve exactly its content. -/
lemma staticFile_write (fs : FS) (name : String) (content : Bytes) :
    StaticFileHandler (fs.write name content) name = some content := by
  unfold StaticFileHandler FS.write
  rw [List.find?_cons_of_pos _ (by simp)]
  rfl

/-- Creating then filling a file under one name stores exactly one entry for
    that name on top of the other files. -/
lemma write_twice_files (fs : FS) (nm : String) (c : Bytes) :
    ((fs.write nm []).write nm c).files
      = (nm, c) :: fs.files.filter fun p => p.1 != nm := by
  unfold FS.write
  simp [List.filter_filter]

/-- C1 counterexample: the filename x.jp has lowercased extension .jp, which
    is not one of the five allowed extensions, yet the upload is accepted
    with status 200 and a file is stored under the generated name. -/
theorem upload_ext_substring_cex :
    goToLower (goExt "x.jp") = ".jp" ∧
    (".jp" : String) ∉ [".jpg", ".jpeg", ".png", ".gif", ".bmp"] ∧
    (FileUploadHandler fsEmpty "POST" (some ("x.jp", [1])) true
      (some [0, 0, 0, 0, 0, 0]) true true).status = 200 ∧
    (FileUploadHandler fsEmpty "POST" (some ("x.jp", [1])) true
      (some [0, 0, 0, 0, 0, 0]) true true).fs.files = [("aaaaaa.jp", [1])] := by
  decide

/-- C1 (amended): with the request well-formed and every effect succeeding,
    the upload is accepted exactly when the lowercased extension of the
    original filename is a substring of the literal .jpg.jpeg.png.gif.bmp —
    which admits the five allowed extensions but also the empty extension and
    fragments such as .jp; an extension that is not such a substring is
    answered 400 with no file stored. -/
theorem upload_ext_check_substring (fs : FS) (origName : String)
    (content : Bytes) (bs : List Nat) (hb : 6 ≤ bs.length) :
    ((FileUploadHandler fs "POST" (some (origName, content)) true (some bs)
        true true).status = 200
      ↔ goContains ".jpg.jpeg.png.gif.bmp" (goToLower (goExt origName)) = true) ∧
    (goContains ".jpg.jpeg.png.gif.bmp" (goToLower (goExt origName)) = false →
      (FileUploadHandler fs "POST" (some (origName, content)) true (some bs)
        true true).status = 400 ∧
      (FileUploadHandler fs "POST" (some (origName, content)) true (some bs)
        true true).fs.files = fs.files) ∧
    (∀ e ∈ [".jpg", ".jpeg", ".png", ".gif", ".bmp"],
      goContains ".jpg.jpeg.png.gif.bmp" e = true) := by
  cases hg : goContains ".jpg.jpeg.png.gif.bmp" (goToLower (goExt origName)) with
  | true =>
    obtain ⟨r, hr⟩ : ∃ r, RandomString 6 (some bs) = some r :=
      ⟨_, randomString_of_le 6 bs hb⟩
    rw [upload_success_eq fs origName content bs r hr hg]
    refine ⟨by simp, ?_, by decide⟩
    intro hfalse
    cases hfalse
  | false =>
    rw [upload_reject_eq fs origName content (some bs) true true hg]
    exact ⟨by simp [plainErr], fun _ => ⟨rfl, rfl⟩, by decide⟩

/-- Witness for upload_ext_check_substring: a concrete pic.PNG upload is
    accepted. -/
theorem upload_ext_check_substring_witness :
    (FileUploadHandler fsEmpty "POST" (some ("pic.PNG", [1, 2])) true
      (some [0, 0, 0, 0, 0, 0]) true true).status = 200 :=
  (upload_ext_check_substring fsEmpty "pic.PNG" [1, 2] [0, 0, 0, 0, 0, 0]
    (by decide)).1.mpr (by decide)

/-- C9: a filename with no dot has the empty extension, the substring check
    admits it, and the file is stored under the bare six-character random
    name; the raw-file route then serves the payload under that name. -/
theorem upload_no_extension_accepted (fs : FS) (origName : String)
    (content : Bytes) (bs : List Nat) (hb : 6 ≤ bs.length)
    (hno : goExt origName = "") :
    ∃ r, RandomString 6 (some bs) = some r ∧ r.length = 6 ∧
      FileUploadHandler fs "POST" (some (origName, content)) true (some bs)
          true true
        = ⟨200, some "application/json",
           some [("imageUrl", BASE_URL ++ "/f/" ++ r),
                 ("rawUrl", BASE_URL ++ "/files/" ++ r)],
           (fs.mkdirAll.write r []).write r content⟩ ∧
      StaticFileHandler ((fs.mkdirAll.write r []).write r content) r
        = some content := by
  obtain ⟨r, hr⟩ : ∃ r, RandomString 6 (some bs) = some r :=
    ⟨_, randomString_of_le 6 bs hb⟩
  have hext : goToLower (goExt origName) = "" := by rw [hno]; rfl
  have hc : goContains ".jpg.jpeg.png.gif.bmp" (goToLower (goExt origName))
      = true := by rw [hext]; decide
  have heq := upload_success_eq fs origName content bs r hr hc
  rw [hext] at heq
  simp only [String.append_empty] at heq
  exact ⟨r, hr, (randomString_some 6 bs r hr).1, heq,
    staticFile_write (fs.mkdirAll.write r []) r content⟩

/-- Witness for upload_no_extension_accepted: uploading a file named README
    stores it under the bare random name. -/
theorem upload_no_extension_accepted_witness :
    ∃ r, RandomString 6 (some [0, 0, 0, 0, 0, 0]) = some r ∧ r.length = 6 ∧
      FileUploadHandler fsEmpty "POST" (some ("README", [7])) true
          (some [0, 0, 0, 0, 0, 0]) true true
        = ⟨200, some "application/json",
           some [("imageUrl", BASE_URL ++ "/f/" ++ r),
                 ("rawUrl", BASE_URL ++ "/files/" ++ r)],
           (fsEmpty.mkdirAll.write r []).write r [7]⟩ ∧
      StaticFileHandler ((fsEmpty.mkdirAll.write r []).write r [7]) r
        = some [7] :=
  upload_no_extension_accepted fsEmpty "README" [7] [0, 0, 0, 0, 0, 0]
    (by decide) (by decide)

/-- C4: a successful upload answers 200 with Content-Type application/json
    and a JSON object of exactly the two fields imageUrl and rawUrl, built
    from BASE_URL and the name formed by the six-character random identifier
    followed by the lowercased original extension. -/
theorem upload_success_response (fs : FS) (origName : String) (content : Bytes)
    (bs : List Nat) (hb : 6 ≤ bs.length)
    (hc : goContains ".jpg.jpeg.png.gif.bmp" (goToLower (goExt origName))
      = true) :
    ∃ r, RandomString 6 (some bs) = some r ∧ r.length = 6 ∧
      (FileUploadHandler fs "POST" (some (origName, content)) true (some bs)
        true true).status = 200 ∧
      (FileUploadHandler fs "POST" (some (origName, content)) true (some bs)
        true true).contentType = some "application/json" ∧
      (FileUploadHandler fs "POST" (some (origName, content)) true (some bs)
        true true).json
        = some [("imageUrl",
                  BASE_URL ++ "/f/" ++ (r ++ goToLower (goExt origName))),
                ("rawUrl",
                  BASE_URL ++ "/files/" ++ (r ++ goToLower (goExt origName)))] := by
  obtain ⟨r, hr⟩ : ∃ r, RandomString 6 (some bs) = some r :=
    ⟨_, randomString_of_le 6 bs hb⟩
  have heq := upload_success_eq fs origName content bs r hr hc
  exact ⟨r, hr, (randomString_some 6 bs r hr).1,
    by rw [heq], by rw [heq], by rw [heq]⟩

/-- Witness for upload_success_response: a pic.PNG upload with all-zero
    entropy yields the two URLs for aaaaaa.png. -/
theorem upload_success_response_witness :
    (FileUploadHandler fsEmpty "POST"
      (some ("pic.PNG", [0, 1, 2, 3, 4, 5, 6, 7, 8, 9])) true
      (some [0, 0, 0, 0, 0, 0]) true true).json
      = some [("imageUrl", "https://i.kuuichi.xyz/f/aaaaaa.png"),
              ("rawUrl", "https://i.kuuichi.xyz/files/aaaaaa.png")] := by
  obtain ⟨r, hr, -, -, -, hjson⟩ :=
    upload_success_response fsEmpty "pic.PNG" [0, 1, 2, 3, 4, 5, 6, 7, 8, 9]
      [0, 0, 0, 0, 0, 0] (by decide) (by decide)
  have hre : "aaaaaa" = r :=
    Option.some.inj ((by decide :
      RandomString 6 (some [0, 0, 0, 0, 0, 0]) = some "aaaaaa").symm.trans hr)
  rw [hjson, ← hre]
  decide

/-- C2 counterexample: with all-zero entropy the generated name aaaaaa.png
    collides with a file already stored in fsCollide; the upload succeeds
    with status 200 yet the number of stored files is unchanged — the
    existing file is overwritten and no new file is created. -/
theorem upload_collision_cex :
    (FileUploadHandler fsCollide "POST" (some ("b.png", [1, 2, 3])) true
      (some [0, 0, 0, 0, 0, 0]) true true).status = 200 ∧
    (FileUploadHandler fsCollide "POST" (some ("b.png", [1, 2, 3])) true
      (some [0, 0, 0, 0, 0, 0]) true true).fs.files.length
      = fsCollide.files.length := by
  decide

/-- C2 (amended): a successful upload stores the payload byte-identically
    under the name its rawUrl references, so fetching that name on the
    raw-file route returns the original bytes; at most one file is added,
    and exactly one new file is created whenever the generated name is not
    already present (a collision overwrites the existing file instead). -/
theorem upload_stores_payload (fs : FS) (origName : String) (content : Bytes)
    (bs : List Nat) (hb : 6 ≤ bs.length)
    (hc : goContains ".jpg.jpeg.png.gif.bmp" (goToLower (goExt origName))
      = true) :
    ∃ nm,
      (FileUploadHandler fs "POST" (some (origName, content)) true (some bs)
        true true).status = 200 ∧
      (FileUploadHandler fs "POST" (some (origName, content)) true (some bs)
        true true).json
        = some [("imageUrl", BASE_URL ++ "/f/" ++ nm),
                ("rawUrl", BASE_URL ++ "/files/" ++ nm)] ∧
      StaticFileHandler
        (FileUploadHandler fs "POST" (some (origName, content)) true (some bs)
          true true).fs nm = some content ∧
      (FileUploadHandler fs "POST" (some (origName, content)) true (some bs)
        true true).fs.files.length ≤ fs.files.length + 1 ∧
      (nm ∉ fs.files.map Prod.fst →
        (FileUploadHandler fs "POST" (some (origName, content)) true (some bs)
          true true).fs.files.length = fs.files.length + 1) := by
  obtain ⟨r, hr⟩ : ∃ r, RandomString 6 (some bs) = some r :=
    ⟨_, randomString_of_le 6 bs hb⟩
  have heq := upload_success_eq fs origName content bs r hr hc
  refine ⟨r ++ goToLower (goExt origName), by rw [heq], by rw [heq], ?_, ?_, ?_⟩
  · rw [heq]
    exact staticFile_write _ _ _
  · rw [heq]
    show ((fs.mkdirAll.write _ []).write _ content).files.length ≤ _
    rw [write_twice_files]
    have hle := List.length_filter_le
      (fun p => p.1 != r ++ goToLower (goExt origName)) fs.mkdirAll.files
    simp only [List.length_cons]
    exact Nat.succ_le_succ hle
  · intro hfresh
    rw [heq]
    show ((fs.mkdirAll.write _ []).write _ content).files.length = _
    rw [write_twice_files]
    have hall : fs.mkdirAll.files.filter
        (fun p => p.1 != r ++ goToLower (goExt origName)) = fs.files := by
      apply List.filter_eq_self.mpr
      intro p hp
      have : p.1 ∈ fs.files.map Prod.fst := List.mem_map_of_mem Prod.fst hp
      have hne : p.1 ≠ r ++ goToLower (goExt origName) := by
        intro hcontra
        rw [hcontra] at this
        exact hfresh this
      exact bne_iff_ne.mpr hne
    rw [hall, List.length_cons]

/-- Witness for upload_stores_payload: entropy starting with byte 1 yields
    the fresh name baaaaa.png in fsSample and one new stored file. -/
theorem upload_stores_payload_witness :
    ∃ nm,
      (FileUploadHandler fsSample "POST" (some ("pic.PNG", [5, 6])) true
        (some [1, 0, 0, 0, 0, 0]) true true).status = 200 ∧
      (FileUploadHandler fsSample "POST" (some ("pic.PNG", [5, 6])) true
        (some [1, 0, 0, 0, 0, 0]) true true).json
        = some [("imageUrl", BASE_URL ++ "/f/" ++ nm),
                ("rawUrl", BASE_URL ++ "/files/" ++ nm)] ∧
      StaticFileHandler
        (FileUploadHandler fsSample "POST" (some ("pic.PNG", [5, 6])) true
          (some [1, 0, 0, 0, 0, 0]) true true).fs nm = some [5, 6] ∧
      (FileUploadHandler fsSample "POST" (some ("pic.PNG", [5, 6])) true
        (some [1, 0, 0, 0, 0, 0]) true true).fs.files.length
        ≤ fsSample.files.length + 1 ∧
      (nm ∉ fsSample.files.map Prod.fst →
        (FileUploadHandler fsSample "POST" (some ("pic.PNG", [5, 6])) true
          (some [1, 0, 0, 0, 0, 0]) true true).fs.files.length
          = fsSample.files.length + 1) :=
  upload_stores_payload fsSample "pic.PNG" [5, 6] [1, 0, 0, 0, 0, 0]
    (by decide) (by decide)

/-- The preview handler on the success path: the named entry exists, so the
    instantiated template is served with status 200. -/
lemma preview_success_eq (fs : FS) (m p : String) (size : Nat)
    (h : fs.stat (goTrimLead p "/f/") = some size) :
    serveImageHTML fs m p
      = ⟨200, some "text/html",
         some (htmlRender (goTrimLead p "/f/")
           ("Size: " ++ formatMB size ++ " MB - Total uploads: "
             ++ toString ((countFiles fs).getD 0))
           (BASE_URL ++ "/files/" ++ goTrimLead p "/f/")
           (BASE_URL ++ "/f/" ++ goTrimLead p "/f/")
           (BASE_URL ++ "/files/" ++ goTrimLead p "/f/")
           (goTrimLead p "/f/"))⟩ := by
  unfold serveImageHTML
  dsimp only
  rw [h]

/-- A sample storage state whose directory listing fails. -/
def fsListErr : FS := ⟨true, 4096, [("zz.png", [1])], [], true⟩

/-- C7: the page served for an existing stored file has the filename as its
    title, a description of the exact shape Size: X.XX MB - Total uploads: N
    whose megabyte value is printed to two decimals (accurate to half of the
    last digit), og:image and twitter:image meta tags whose content is
    BASE_URL followed by the raw-file route and the filename, and a visible
    img tag with that same URL as its src. -/
theorem preview_page_contents (fs : FS) (m p : String) (size : Nat)
    (h : fs.stat (goTrimLead p "/f/") = some size) :
    (serveImageHTML fs m p).status = 200 ∧
    ∃ body, (serveImageHTML fs m p).body = some body ∧
      goContains body ("<title>" ++ goTrimLead p "/f/" ++ "</title>") = true ∧
      goContains body ("<meta property=\"og:description\" content=\""
        ++ ("Size: " ++ formatMB size ++ " MB - Total uploads: "
            ++ toString ((countFiles fs).getD 0)) ++ "\">") = true ∧
      goContains body ("<meta property=\"og:image\" content=\""
        ++ (BASE_URL ++ "/files/" ++ goTrimLead p "/f/") ++ "\">") = true ∧
      goContains body ("<meta name=\"twitter:image\" content=\""
        ++ (BASE_URL ++ "/files/" ++ goTrimLead p "/f/") ++ "\">") = true ∧
      goContains body ("<img src=\""
        ++ (BASE_URL ++ "/files/" ++ goTrimLead p "/f/")
        ++ "\" alt=\"" ++ goTrimLead p "/f/" ++ "\">") = true ∧
      (∃ k : Nat,
        formatMB size = toString (k / 100) ++ "." ++ twoDigits (k % 100) ∧
        |(k : ℚ) / 100 - (size : ℚ) / 1048576| ≤ 1 / 200) := by
  have heq := preview_success_eq fs m p size h
  refine ⟨by rw [heq],
    htmlRender (goTrimLead p "/f/")
      ("Size: " ++ formatMB size ++ " MB - Total uploads: "
        ++ toString ((countFiles fs).getD 0))
      (BASE_URL ++ "/files/" ++ goTrimLead p "/f/")
      (BASE_URL ++ "/f/" ++ goTrimLead p "/f/")
      (BASE_URL ++ "/files/" ++ goTrimLead p "/f/")
      (goTrimLead p "/f/"),
    by rw [heq], ?_, ?_, ?_, ?_, ?_, formatMB_close size⟩
  · unfold htmlRender
    iterate 17 apply goContains_append_left
    exact goContains_append_right _ _ _ (goContains_self _)
  · unfold htmlRender
    iterate 13 apply goContains_append_left
    exact goContains_append_right _ _ _ (goContains_self _)
  · unfold htmlRender
    iterate 11 apply goContains_append_left
    exact goContains_append_right _ _ _ (goContains_self _)
  · unfold htmlRender
    iterate 3 apply goContains_append_left
    exact goContains_append_right _ _ _ (goContains_self _)
  · unfold htmlRender
    iterate 1 apply goContains_append_left
    exact goContains_append_right _ _ _ (goContains_self _)

/-- Witness for preview_page_contents at a concrete stored file. -/
theorem preview_page_contents_witness :
    (serveImageHTML fsSample "GET" "/f/abc123.png").status = 200 :=
  (preview_page_contents fsSample "GET" "/f/abc123.png" 3 (by decide)).1

/-- C8: the total-uploads value on the preview page is the number of
    directory entries of the storage root — stored files together with any
    other entries — and is zero when the directory listing fails, in which
    case the page is still served with 200. -/
theorem preview_total_uploads (fs : FS) (m p : String) (size : Nat)
    (h : fs.stat (goTrimLead p "/f/") = some size) :
    (serveImageHTML fs m p).status = 200 ∧
    (fs.readDirFails = false →
      (countFiles fs).getD 0 = fs.dirEntries.length) ∧
    (fs.readDirFails = true → (countFiles fs).getD 0 = 0) ∧
    ∃ body, (serveImageHTML fs m p).body = some body ∧
      goContains body ("<meta property=\"og:description\" content=\""
        ++ ("Size: " ++ formatMB size ++ " MB - Total uploads: "
            ++ toString ((countFiles fs).getD 0)) ++ "\">") = true := by
  have heq := preview_success_eq fs m p size h
  refine ⟨by rw [heq], ?_, ?_,
    htmlRender (goTrimLead p "/f/")
      ("Size: " ++ formatMB size ++ " MB - Total uploads: "
        ++ toString ((countFiles fs).getD 0))
      (BASE_URL ++ "/files/" ++ goTrimLead p "/f/")
      (BASE_URL ++ "/f/" ++ goTrimLead p "/f/")
      (BASE_URL ++ "/files/" ++ goTrimLead p "/f/")
      (goTrimLead p "/f/"),
    by rw [heq], ?_⟩
  · intro hf
    simp [countFiles, hf]
  · intro hf
    simp [countFiles, hf]
  · unfold htmlRender
    iterate 13 apply goContains_append_left
    exact goContains_append_right _ _ _ (goContains_self _)

/-- Witness for preview_total_uploads: when the directory listing fails the
    page is still served and the shown count is zero. -/
theorem preview_total_uploads_witness :
    (serveImageHTML fsListErr "GET" "/f/zz.png").status = 200 ∧
    (countFiles fsListErr).getD 0 = 0 :=
  ⟨(preview_total_uploads fsListErr "GET" "/f/zz.png" 1 (by decide)).1,
   (preview_total_uploads fsListErr "GET" "/f/zz.png" 1 (by decide)).2.2.1 rfl⟩
